import Mathlib

/-
Verification development for the bb_currency repository.

The Python code under `currency/` is shallowly embedded below.  Numeric
values (Python `Decimal` / json floats) are modelled as exact rationals
`ℚ`; Python's `round(x, 6)` (banker's rounding in the default Decimal
context) is modelled by `round6`; calendar dates are modelled as natural
day numbers, with `strftime("%Y-%m-%d")` modelled by `toString`.
Python's dynamically typed dictionaries, which are essential to the
behaviour of `calculate_twrr` and the provider fetch pipeline, are
modelled by the inductive type `PyVal`; fallible code returns
`Except PyErr`.
-/

namespace BbCurrency

/-- Python exception classes that the embedded code can raise. -/
inductive PyErr where
  | providerError (msg : String)
  | valueError (msg : String)
  | keyError (k : String)
  | typeError
  | divisionByZero
  deriving Repr, DecidableEq

/-- A dynamically typed Python value: `None`, a string, a number
(`Decimal`/float, modelled exactly as a rational), a `datetime`/date
object (modelled as a day number), or a dict with string keys
(modelled as an ordered association list, mirroring insertion order). -/
inductive PyVal where
  | pynone
  | str (s : String)
  | num (q : ℚ)
  | pydate (d : ℕ)
  | dict (m : List (String × PyVal))
  deriving Repr

/-- Python truthiness for the values we model: `None` is falsy, strings
and dicts are falsy when empty, numbers are falsy when zero, date
objects are always truthy. -/
def pyTruthy : PyVal → Bool
  | .pynone => false
  | .str s => s ≠ ""
  | .num q => q ≠ 0
  | .pydate _ => true
  | .dict m => !m.isEmpty

/-- `data[k]` on a Python value: a key lookup on a dict (first binding
wins, as keys of a real dict are unique), `KeyError` when the key is
absent, and `TypeError` when the value is not subscriptable by string. -/
def pySubscr : PyVal → String → Except PyErr PyVal
  | .dict m, k =>
    match m.lookup k with
    | some v => .ok v
    | none => .error (.keyError k)
  | _, _ => .error (.typeError)

/-- Using a Python value as a number (e.g. as a division operand):
`TypeError` unless it is numeric. -/
def asNum : PyVal → Except PyErr ℚ
  | .num q => .ok q
  | _ => .error (.typeError)

/-- Round a rational to the nearest integer, ties to even — the
rounding used by Python's `round` on `Decimal` values
(`ROUND_HALF_EVEN`, the default Decimal context). -/
def roundHalfEven (x : ℚ) : ℤ :=
  let f : ℤ := ⌊x⌋
  let frac : ℚ := x - f
  if frac < 1/2 then f
  else if 1/2 < frac then f + 1
  else if f % 2 = 0 then f else f + 1

/-- Python's `round(x, 6)` on `Decimal` values. -/
def round6 (x : ℚ) : ℚ := (roundHalfEven (x * 1000000) : ℚ) / 1000000

/-- The loop body of `calculate_twrr` (services.py:447-460).  `prev` is
`historical_rates[i-1]`, `rest` the remaining entries, `total` the
running `total_return`.  Entry subscripts, the division's operand types,
and division by zero fail exactly as in Python and in Python's order:
`historical_rates[i-1]["rate_value"]`, then
`historical_rates[i]["rate_value"]`, then the division, and only then
`historical_rates[i]["valuation_date"]` inside the appended dict. -/
def twrrStep (amount : ℚ) : PyVal → List PyVal → ℚ → Except PyErr (List PyVal)
  | _, [], _ => .ok []
  | prev, cur :: rest, total => do
    let pv ← pySubscr prev "rate_value"
    let cv ← pySubscr cur "rate_value"
    let pq ← asNum pv
    let cq ← asNum cv
    if pq = 0 then .error (.divisionByZero)
    else
      let total2 := total * (cq / pq)
      let dv ← pySubscr cur "valuation_date"
      let pts ← twrrStep amount cur rest total2
      .ok (.dict [("date", dv), ("rate_value", cv),
                  ("twrr", .num (round6 (total2 * amount)))] :: pts)

/-- `calculate_twrr(historical_rates, amount)` (services.py:429-462). -/
def calculate_twrr (historical_rates : List PyVal) (amount : ℚ) :
    Except PyErr (List PyVal) :=
  match historical_rates with
  | [] => .ok []
  | h :: t => twrrStep amount h t 1

/-- One record of a provider's JSON file: `{base, date, rates}`.  The
latest-endpoint file uses the same item shape without consulting the
`date` field. -/
structure FileRecord where
  base : String
  date : String
  rates : List (String × ℚ)

/-- The external world the adapters read from, keyed by provider
address.  For HTTP providers the functions return the contents of the
configured response field (`response.get(path)`) of the remote JSON
body for a given `(source, exchanged)` request, `none` when the field
is missing; for file providers they return the parsed JSON array at
the configured path under the address. -/
structure Env where
  httpLatestRates : String → String → String → Option (List (String × ℚ))
  httpHistRates : String → String → String → String → Option (List (String × ℚ))
  fileLatestDoc : String → List FileRecord
  fileHistDoc : String → List FileRecord

/-- `FileJsonAdapter.get_latest_rate` (provider_interface.py:98-128):
find the first item whose `base` matches, `ProviderError` when none
does, then `Decimal(rates[exchanged_currency_code])` — a plain key
lookup that raises `KeyError` on a missing key (there is no
compound-request branch in this adapter). -/
def FileJsonAdapter.get_latest_rate (doc : List FileRecord)
    (source_currency_code exchanged_currency_code : String) :
    Except PyErr PyVal :=
  match doc.find? (fun it => it.base == source_currency_code) with
  | none => .error (.providerError "Source currency was not found in the file.")
  | some it =>
    match it.rates.lookup exchanged_currency_code with
    | some q => .ok (.num q)
    | none => .error (.keyError exchanged_currency_code)

/-- `FileJsonAdapter.get_historical_rates` (provider_interface.py:130-167):
find the first item matching both the formatted date and the base;
return `None` when absent, otherwise the whole item as a dict
(keys `base`, `date`, `rates`). -/
def FileJsonAdapter.get_historical_rates (doc : List FileRecord)
    (source_currency_code : String) (valuation_date : ℕ) :
    Except PyErr PyVal :=
  match doc.find? (fun it =>
      it.date == toString valuation_date && it.base == source_currency_code) with
  | none => .ok .pynone
  | some it =>
    .ok (.dict [("base", .str it.base), ("date", .str it.date),
                ("rates", .dict (it.rates.map fun p => (p.1, PyVal.num p.2)))])

/-- `HttpJsonAdapter.get_latest_rate` (provider_interface.py:248-284):
`resp` is the response's configured rates field; a missing or falsy
field raises `ProviderError`; a compound request (a comma in
`exchanged_currency_code`) returns the whole mapping, otherwise
`Decimal(rates[exchanged_currency_code])`. -/
def HttpJsonAdapter.get_latest_rate (resp : Option (List (String × ℚ)))
    (exchanged_currency_code : String) : Except PyErr PyVal :=
  match resp with
  | none => .error (.providerError "Provider did not return any rates.")
  | some rates =>
    if rates.isEmpty then
      .error (.providerError "Provider did not return any rates.")
    else if exchanged_currency_code.data.contains ',' then
      .ok (.dict (rates.map fun p => (p.1, PyVal.num p.2)))
    else
      match rates.lookup exchanged_currency_code with
      | some q => .ok (.num q)
      | none => .error (.keyError exchanged_currency_code)

/-- `HttpJsonAdapter.get_historical_rates` (provider_interface.py:286-331):
a missing or falsy rates field raises `ProviderError`, otherwise the
rate mapping is returned. -/
def HttpJsonAdapter.get_historical_rates (resp : Option (List (String × ℚ))) :
    Except PyErr PyVal :=
  match resp with
  | none => .error (.providerError "Provider did not return any rates.")
  | some rates =>
    if rates.isEmpty then
      .error (.providerError "Provider did not return any rates.")
    else .ok (.dict (rates.map fun p => (p.1, PyVal.num p.2)))

/-- A provider configuration row (models.Provider), the fields the
fetch paths read. -/
structure Provider where
  name : String
  priority : Int
  resource_type : String
  address : String
  force_base_currency : Option String

/-- The adapter variant selected for a provider. -/
inductive AdapterKind where
  | http
  | file

/-- The `resource_type` dispatch shared by `get_latest_from_provider`
(services.py:167-174) and `get_hist_from_provider` (services.py:282-289):
`"http"` and `"json"` select an adapter, anything else raises
`ValueError`, which the orchestrator loop does not catch. -/
def selectAdapter (provider : Provider) : Except PyErr AdapterKind :=
  if provider.resource_type == "http" then .ok .http
  else if provider.resource_type == "json" then .ok .file
  else .error (.valueError
    ("Unknown provider resource type: " ++ provider.resource_type))

/-- The guard `provider.force_base_currency and
provider.force_base_currency != source_currency_code`: the forced base
must be set, non-empty (Python truthiness) and different from the
source. -/
def forceBaseActive (provider : Provider) (source_currency_code : String) :
    Bool :=
  match provider.force_base_currency with
  | none => false
  | some fb => fb != "" && fb != source_currency_code

/-- A latest-rate call through the selected adapter. -/
def adapterLatest (env : Env) (k : AdapterKind) (address : String)
    (source_currency_code exchanged_currency_code : String) :
    Except PyErr PyVal :=
  match k with
  | .http => HttpJsonAdapter.get_latest_rate
      (env.httpLatestRates address source_currency_code exchanged_currency_code)
      exchanged_currency_code
  | .file => FileJsonAdapter.get_latest_rate (env.fileLatestDoc address)
      source_currency_code exchanged_currency_code

/-- A historical-rates call through the selected adapter. -/
def adapterHist (env : Env) (k : AdapterKind) (address : String)
    (source_currency_code exchanged_currency_code : String)
    (valuation_date : ℕ) : Except PyErr PyVal :=
  match k with
  | .http => HttpJsonAdapter.get_historical_rates
      (env.httpHistRates address source_currency_code exchanged_currency_code
        (toString valuation_date))
  | .file => FileJsonAdapter.get_historical_rates (env.fileHistDoc address)
      source_currency_code valuation_date

/-- `get_latest_from_provider` (services.py:146-191).  With an active
forced base the adapter is asked for the forced base's rates against
`",".join([exchanged, source])`, and the scalar
`Decimal(raw_data[source] / raw_data[exchanged])` is computed —
subscripting left to right, `TypeError` when `raw_data` is not a dict
(the file adapter returns a scalar even for the compound request),
`ZeroDivisionError` on a zero denominator. -/
def get_latest_from_provider (env : Env) (provider : Provider)
    (source_currency_code exchanged_currency_code : String) :
    Except PyErr PyVal := do
  let k ← selectAdapter provider
  if forceBaseActive provider source_currency_code then
    let fb := provider.force_base_currency.getD ""
    let raw ← adapterLatest env k provider.address fb
      (exchanged_currency_code ++ "," ++ source_currency_code)
    let sv ← pySubscr raw source_currency_code
    let ev ← pySubscr raw exchanged_currency_code
    let sq ← asNum sv
    let eq2 ← asNum ev
    if eq2 = 0 then .error (.divisionByZero)
    else .ok (.num (sq / eq2))
  else
    adapterLatest env k provider.address source_currency_code
      exchanged_currency_code

/-- `reverse_rates(source_currency_code, data)` (services.py:230-254):
`data[source_currency_code]` with only `KeyError` caught (yielding an
empty dict); the comprehension keeps every key other than the source
code and divides by the base rate, rounding to 6 places. -/
def reverse_rates (source_currency_code : String) (data : PyVal) :
    Except PyErr PyVal :=
  match data with
  | .dict m =>
    match m.lookup source_currency_code with
    | none => .ok (.dict [])
    | some base_rate => do
      let pairs ← (m.filter fun p => p.1 != source_currency_code).mapM
        (fun p => do
          let r ← asNum p.2
          let b ← asNum base_rate
          if b = 0 then .error (PyErr.divisionByZero)
          else .ok (p.1, PyVal.num (round6 (r / b))))
      .ok (.dict pairs)
  | _ => .error (.typeError)

/-- `get_hist_from_provider` (services.py:257-307): same adapter
dispatch; with an active forced base the compound historical request is
made and the raw result is passed through `reverse_rates`. -/
def get_hist_from_provider (env : Env) (provider : Provider)
    (source_currency_code exchanged_currency_code : String)
    (valuation_date : ℕ) : Except PyErr PyVal := do
  let k ← selectAdapter provider
  if forceBaseActive provider source_currency_code then
    let fb := provider.force_base_currency.getD ""
    let raw ← adapterHist env k provider.address fb
      (exchanged_currency_code ++ "," ++ source_currency_code) valuation_date
    reverse_rates source_currency_code raw
  else
    adapterHist env k provider.address source_currency_code
      exchanged_currency_code valuation_date

/-- The provider loop of `fetch_latest_rates_from_provider`
(services.py:215-227): `data` starts as `None`; a `ProviderError` is
logged and absorbed; a truthy result breaks; a falsy result is kept in
`data` and the loop continues; any other exception propagates. -/
def fetchLatestGo (env : Env) (source_currency_code exchanged_currency_code : String) :
    PyVal → List Provider → Except PyErr PyVal
  | data, [] => .ok data
  | data, p :: rest =>
    match get_latest_from_provider env p source_currency_code
        exchanged_currency_code with
    | .ok d =>
      if pyTruthy d then .ok d
      else fetchLatestGo env source_currency_code exchanged_currency_code d rest
    | .error (.providerError _) =>
      fetchLatestGo env source_currency_code exchanged_currency_code data rest
    | .error e => .error e

/-- `fetch_latest_rates_from_provider` (services.py:194-227).  The
provider list stands for `Provider.objects.order_by("priority")`:
providers already sorted by ascending priority. -/
def fetch_latest_rates_from_provider (env : Env) (providers : List Provider)
    (source_currency_code exchanged_currency_code : String) :
    Except PyErr PyVal :=
  fetchLatestGo env source_currency_code exchanged_currency_code
    .pynone providers

/-- The provider loop of `fetch_historical_rates_from_provider`
(services.py:336-350), identical in shape to the latest loop. -/
def fetchHistGo (env : Env) (source_currency_code exchanged_currency_code : String)
    (valuation_date : ℕ) : PyVal → List Provider → Except PyErr PyVal
  | data, [] => .ok data
  | data, p :: rest =>
    match get_hist_from_provider env p source_currency_code
        exchanged_currency_code valuation_date with
    | .ok d =>
      if pyTruthy d then .ok d
      else fetchHistGo env source_currency_code exchanged_currency_code
        valuation_date d rest
    | .error (.providerError _) =>
      fetchHistGo env source_currency_code exchanged_currency_code
        valuation_date data rest
    | .error e => .error e

/-- A `CurrencyExchangeRate` row created by the persistence step. -/
structure CERRow where
  source_currency_id : Int
  exchanged_currency_id : Int
  rate_value : PyVal
  valuation_date : ℕ

/-- The persistence step of `fetch_historical_rates_from_provider`
(services.py:352-374), run when `data is not None`: with a `rates` key
present, one row per symbol is bulk-created (the currency lookups raise
`KeyError` on an unknown code); otherwise a single row is created from
`data[exchanged_currency_code]`. -/
def persistHistData (currencies : List (String × Int))
    (source_currency_code exchanged_currency_code : String)
    (valuation_date : ℕ) (data : PyVal) : Except PyErr (List CERRow) :=
  match data with
  | .dict m =>
    match m.lookup "rates" with
    | some (.dict rm) =>
      rm.mapM fun p => do
        let sid ← match currencies.lookup source_currency_code with
          | some v => Except.ok v
          | none => Except.error (PyErr.keyError source_currency_code)
        let eid ← match currencies.lookup p.1 with
          | some v => Except.ok v
          | none => Except.error (PyErr.keyError p.1)
        .ok ⟨sid, eid, p.2, valuation_date⟩
    | some _ => .error (.typeError)
    | none => do
      let sid ← match currencies.lookup source_currency_code with
        | some v => Except.ok v
        | none => Except.error (PyErr.keyError source_currency_code)
      let eid ← match currencies.lookup exchanged_currency_code with
        | some v => Except.ok v
        | none => Except.error (PyErr.keyError exchanged_currency_code)
      let rv ← pySubscr data exchanged_currency_code
      .ok [⟨sid, eid, rv, valuation_date⟩]
  | _ => .error (.typeError)

/-- `fetch_historical_rates_from_provider` (services.py:310-376):
run the fallback loop, then, whenever the final `data` is not `None`,
resolve currency identifiers and write the exchange-rate rows; the
function returns `data` together with the rows it created. -/
def fetch_historical_rates_from_provider (env : Env)
    (providers : List Provider) (currencies : List (String × Int))
    (source_currency_code exchanged_currency_code : String)
    (valuation_date : ℕ) : Except PyErr (PyVal × List CERRow) := do
  let data ← fetchHistGo env source_currency_code exchanged_currency_code
    valuation_date .pynone providers
  match data with
  | .pynone => .ok (.pynone, [])
  | _ => do
    let rows ← persistHistData currencies source_currency_code
      exchanged_currency_code valuation_date data
    .ok (data, rows)

/-- A stored `CurrencyExchangeRate` row as read back from the database,
with the currency codes of its related rows. -/
structure StoredRate where
  source_code : String
  exchanged_code : String
  valuation_date : ℕ
  rate_value : ℚ

/-- `get_db_rates` (services.py:18-46): for an EUR source, filter by
source, exchanged currency and date range; for any other source, all
rows in the date range (all pairs). -/
def get_db_rates (store : List StoredRate)
    (source_currency_code exchanged_currency_code : String)
    (date_from date_to : ℕ) : List StoredRate :=
  if source_currency_code == "EUR" then
    store.filter fun r =>
      r.source_code == source_currency_code &&
      r.exchanged_code == exchanged_currency_code &&
      date_from ≤ r.valuation_date && r.valuation_date ≤ date_to
  else
    store.filter fun r =>
      date_from ≤ r.valuation_date && r.valuation_date ≤ date_to

/-- One element of `db_rates.values("valuation_date", "rate_value",
"exchanged_currency__code")`. -/
structure DbRow where
  valuation_date : ℕ
  rate_value : ℚ
  exchanged_currency__code : String

/-- Appending a row to `defaultdict(list)` keyed by date: existing keys
keep their position and collect rows in order, a new key is appended. -/
def addRowToGroups (gs : List (ℕ × List DbRow)) (d : ℕ) (r : DbRow) :
    List (ℕ × List DbRow) :=
  match gs with
  | [] => [(d, [r])]
  | (d', rs) :: rest =>
    if d' == d then (d', rs ++ [r]) :: rest
    else (d', rs) :: addRowToGroups rest d r

/-- The `rates_grouped_by_date` loop of `process_db_rates`
(services.py:63-68). -/
def groupByDate (rows : List DbRow) : List (ℕ × List DbRow) :=
  rows.foldl (fun gs r => addRowToGroups gs r.valuation_date r) []

/-- `dict.__or__`: left dict updated by the right one — existing keys
keep their position and take the right value, new keys are appended. -/
def dictSet (m : List (String × PyVal)) (k : String) (v : PyVal) :
    List (String × PyVal) :=
  match m with
  | [] => [(k, v)]
  | (k', v') :: rest =>
    if k' == k then (k', v) :: rest else (k', v') :: dictSet rest k v

/-- Python `a | b` on dicts. -/
def pyDictUnion (a b : List (String × PyVal)) : List (String × PyVal) :=
  b.foldl (fun acc p => dictSet acc p.1 p.2) a

/-- The body of the per-date loop of `process_db_rates`
(services.py:70-110): for an EUR source the raw rates are emitted under
a formatted date; otherwise the first row whose exchanged code equals
the source is the base (`ValueError` when absent), the other rows are
divided by it, and an `EUR` entry of `round(1/base, 6)` is merged in.
Rounding divides by the base rate for each kept row in order, raising
`ZeroDivisionError` on a zero base rate, before the `EUR` entry is
computed. -/
def processDateGroup (source_currency_code : String) (valuation_date : ℕ)
    (rates : List DbRow) : Except PyErr PyVal :=
  if source_currency_code == "EUR" then
    .ok (.dict [("date", .str (toString valuation_date)),
                ("rates", .dict (rates.map fun r =>
                  (r.exchanged_currency__code, PyVal.num r.rate_value)))])
  else
    match rates.find? (fun r =>
        r.exchanged_currency__code == source_currency_code) with
    | none => .error (.valueError
        ("No base rate found for currency code " ++ source_currency_code))
    | some base_row => do
      let processed ← (rates.filter fun r =>
          r.exchanged_currency__code != base_row.exchanged_currency__code).mapM
        (fun r =>
          if base_row.rate_value = 0 then .error (PyErr.divisionByZero)
          else .ok (r.exchanged_currency__code,
            PyVal.num (round6 (r.rate_value / base_row.rate_value))))
      let eurv ←
        if base_row.rate_value = 0 then .error (PyErr.divisionByZero)
        else .ok (PyVal.num (round6 (1 / base_row.rate_value)))
      .ok (.dict [("date", .pydate valuation_date),
                  ("rates", .dict (pyDictUnion processed [("EUR", eurv)]))])

/-- `process_db_rates` (services.py:49-112). -/
def process_db_rates (db_rates : List StoredRate)
    (source_currency_code : String) : Except PyErr (List PyVal) :=
  let rows := db_rates.map fun r =>
    DbRow.mk r.valuation_date r.rate_value r.exchanged_code
  (groupByDate rows).mapM fun g =>
    processDateGroup source_currency_code g.1 g.2

/-- `get_currency_rates_for_period` (services.py:115-143): read the
range from the store and process it; an empty read yields `[]`. -/
def get_currency_rates_for_period (store : List StoredRate)
    (source_currency_code exchanged_currency_code : String)
    (date_from date_to : ℕ) : Except PyErr (List PyVal) :=
  let db_rates := get_db_rates store source_currency_code
    exchanged_currency_code date_from date_to
  if db_rates.isEmpty then .ok []
  else process_db_rates db_rates source_currency_code

/-- The day-by-day backfill loop of `get_weighted_ror`
(services.py:408-417): while `dt <= today`, fetch that day through the
provider fallback and append the result (even a `None` one). -/
def backfillDays (env : Env) (providers : List Provider)
    (currencies : List (String × Int))
    (source_currency_code exchanged_currency_code : String)
    (dt today : ℕ) : Except PyErr (List PyVal) :=
  if _h : dt ≤ today then do
    let r ← fetch_historical_rates_from_provider env providers currencies
      source_currency_code exchanged_currency_code dt
    let rest ← backfillDays env providers currencies source_currency_code
      exchanged_currency_code (dt + 1) today
    .ok (r.1 :: rest)
  else .ok []
termination_by today + 1 - dt

/-- The result dict of `get_weighted_ror` (services.py:419-425). -/
structure WeightedRor where
  base : String
  exchanged : String
  amount : ℚ
  start_date : ℕ
  twrr : List PyVal

/-- `get_weighted_ror` (services.py:379-426): period rates from the
store, the day-by-day provider backfill when the store had nothing,
then `calculate_twrr` on whatever series resulted.  `today` stands for
`datetime.today()`. -/
def get_weighted_ror (env : Env) (providers : List Provider)
    (currencies : List (String × Int)) (store : List StoredRate)
    (source_currency_code exchanged_currency_code : String) (amount : ℚ)
    (start_date today : ℕ) : Except PyErr WeightedRor := do
  let historical ← get_currency_rates_for_period store source_currency_code
    exchanged_currency_code start_date today
  let series ←
    if historical.isEmpty then
      backfillDays env providers currencies source_currency_code
        exchanged_currency_code start_date today
    else .ok historical
  let twrrs ← calculate_twrr series amount
  .ok ⟨source_currency_code, exchanged_currency_code, amount, start_date, twrrs⟩

/-! Concrete fixtures used by witness and counterexample theorems. -/

/-- An HTTP world whose configured response field always holds
EUR-based rates for GBP and USD. -/
def envHttpEur : Env where
  httpLatestRates := fun _ _ _ => some [("GBP", 9/10), ("USD", 11/10)]
  httpHistRates := fun _ _ _ _ => some [("GBP", 9/10), ("USD", 11/10)]
  fileLatestDoc := fun _ => []
  fileHistDoc := fun _ => []

/-- An HTTP world whose rates mapping lacks the USD entry. -/
def envNoUsd : Env where
  httpLatestRates := fun _ _ _ => some [("GBP", 9/10)]
  httpHistRates := fun _ _ _ _ => some [("GBP", 9/10)]
  fileLatestDoc := fun _ => []
  fileHistDoc := fun _ => []

/-- An HTTP world whose responses never carry the configured rates
field, so every HTTP fetch raises `ProviderError`. -/
def envEmpty : Env where
  httpLatestRates := fun _ _ _ => none
  httpHistRates := fun _ _ _ _ => none
  fileLatestDoc := fun _ => []
  fileHistDoc := fun _ => []

/-- An HTTP provider forcing EUR as its base currency. -/
def provHttpEur : Provider := ⟨"P1", 1, "http", "addr1", some "EUR"⟩

/-- An HTTP provider with no forced base. -/
def provHttpPlain : Provider := ⟨"P0", 1, "http", "addr0", none⟩

/-- A provider with an unknown resource type. -/
def provCsv : Provider := ⟨"PB", 2, "csv", "addr2", none⟩

/-- A latest-endpoint file document with a single EUR-based record. -/
def docEur : List FileRecord :=
  [⟨"EUR", "1", [("GBP", 9/10), ("USD", 11/10)]⟩]

/-- An HTTP world with integer rates at address `addr0` only; any
other address yields a response without the rates field. -/
def envInt : Env where
  httpLatestRates := fun a _ _ => if a = "addr0" then some [("GBP", 2)] else none
  httpHistRates := fun a _ _ _ => if a = "addr0" then some [("GBP", 2)] else none
  fileLatestDoc := fun _ => []
  fileHistDoc := fun _ => []

/-- An HTTP provider whose address never yields rates. -/
def provHttpErr : Provider := ⟨"PE", 0, "http", "addrX", none⟩

/-- A series entry shaped as `calculate_twrr` expects. -/
def twrrEntry (d : String) (q : ℚ) : PyVal :=
  .dict [("valuation_date", .str d), ("rate_value", .num q)]

/-- The stored rows of the C8 example scenario: EUR-as-exchanged rates
under source USD on 2024-01-23 (day 23) and 2024-01-24 (day 24). -/
def storeC8 : List StoredRate :=
  [⟨"USD", "EUR", 23, 1⟩, ⟨"USD", "EUR", 24, 900611/1000000⟩]

/-- Stored rows that do contain a USD base row in every date group. -/
def storeUsdBase : List StoredRate :=
  [⟨"EUR", "USD", 23, 1⟩, ⟨"EUR", "USD", 24, 2⟩]

/-- Stored rows for the period-aggregation witness: one date group with
GBP and USD rows, one with only USD. -/
def storeC4 : List StoredRate :=
  [⟨"EUR", "GBP", 23, 2⟩, ⟨"EUR", "USD", 23, 3⟩,
   ⟨"EUR", "USD", 24, 1⟩]

/-! Helper lemmas shared by the claim theorems. -/

/-- The numeric content of a `PyVal`, with a default. -/
def asNumD : PyVal → ℚ
  | .num q => q
  | _ => 0

theorem exceptBindOk {eps alpha beta : Type} (a : alpha)
    (f : alpha → Except eps beta) : (Except.ok a >>= f) = f a := rfl

theorem exceptBindError {eps alpha beta : Type} (e : eps)
    (f : alpha → Except eps beta) :
    ((Except.error e : Except eps alpha) >>= f) = .error e := rfl

theorem joined_contains_comma (a b : String) :
    (a ++ "," ++ b).data.contains ',' = true := by
  simp [String.data_append]

theorem selectAdapter_http (p : Provider) (h : p.resource_type = "http") :
    selectAdapter p = .ok .http := by simp [selectAdapter, h]

theorem selectAdapter_json (p : Provider) (h : p.resource_type = "json") :
    selectAdapter p = .ok .file := by simp [selectAdapter, h]

theorem selectAdapter_unknown (p : Provider) (h1 : p.resource_type ≠ "http")
    (h2 : p.resource_type ≠ "json") :
    selectAdapter p = .error (.valueError
      ("Unknown provider resource type: " ++ p.resource_type)) := by
  simp [selectAdapter, h1, h2]

theorem forceBaseActive_true (p : Provider) (source fb : String)
    (hfb : p.force_base_currency = some fb) (h1 : fb ≠ "")
    (h2 : fb ≠ source) : forceBaseActive p source = true := by
  simp [forceBaseActive, hfb, h1, h2]

theorem mapM_ok_of_forall {α β : Type} (f : α → Except PyErr β) (g : α → β) :
    ∀ l : List α, (∀ a ∈ l, f a = .ok (g a)) → l.mapM f = .ok (l.map g)
  | [], _ => rfl
  | a :: l, h => by
    rw [List.mapM_cons, h a (List.mem_cons_self a l),
      mapM_ok_of_forall f g l (fun x hx => h x (List.mem_cons_of_mem a hx))]
    rfl

theorem lookup_map_num (m : List (String × ℚ)) (k : String) :
    (m.map fun p => (p.1, PyVal.num p.2)).lookup k = (m.lookup k).map PyVal.num := by
  induction m with
  | nil => rfl
  | cons hd tl ih =>
    rcases hd with ⟨a, q⟩
    by_cases h : k = a
    · subst h; simp [List.lookup]
    · have hb : (k == a) = false := beq_false_of_ne h
      simp [List.lookup, hb, ih]

theorem lookup_filter_map_ne (m : List (String × ℚ)) (s c : String)
    (F : ℚ → PyVal) (hc : c ≠ s) :
    ((m.filter fun p => p.1 != s).map fun p => (p.1, F p.2)).lookup c
      = (m.lookup c).map F := by
  induction m with
  | nil => rfl
  | cons hd tl ih =>
    rcases hd with ⟨a, q⟩
    by_cases ha : a = s
    · subst ha
      have hb : (c == a) = false := beq_false_of_ne hc
      simp [List.lookup, hb, ih]
    · have hb : (a != s) = true := bne_iff_ne.mpr ha
      by_cases hca : c = a
      · subst hca; simp [List.lookup, hb]
      · have hb2 : (c == a) = false := beq_false_of_ne hca
        simp [List.lookup, hb, hb2, ih]

theorem lookup_filter_map_self (m : List (String × ℚ)) (s : String)
    (F : ℚ → PyVal) :
    ((m.filter fun p => p.1 != s).map fun p => (p.1, F p.2)).lookup s = none := by
  induction m with
  | nil => rfl
  | cons hd tl ih =>
    rcases hd with ⟨a, q⟩
    by_cases ha : a = s
    · subst ha; simp [List.lookup, ih]
    · have hb : (a != s) = true := bne_iff_ne.mpr ha
      have hb2 : (s == a) = false := beq_false_of_ne (Ne.symm ha)
      simp [List.lookup, hb, hb2, ih]

theorem filter_map_num_swap (m : List (String × ℚ)) (s : String) :
    ((m.map fun p => (p.1, PyVal.num p.2)).filter fun p => p.1 != s)
      = (m.filter fun p => p.1 != s).map fun p => (p.1, PyVal.num p.2) := by
  induction m with
  | nil => rfl
  | cons hd tl ih =>
    by_cases h : hd.1 != s <;> simp [List.filter, h, ih]

/-- `reverse_rates` on a successfully fetched HTTP rate mapping that
contains the source code with a non-zero rate: every other entry is
divided by the source rate and rounded, the source entry is dropped. -/
theorem reverse_rates_ok (source : String) (m : List (String × ℚ)) (qs : ℚ)
    (hs : m.lookup source = some qs) (h0 : qs ≠ 0) :
    reverse_rates source (.dict (m.map fun p => (p.1, PyVal.num p.2)))
      = .ok (.dict ((m.filter fun p => p.1 != source).map
          fun p => (p.1, PyVal.num (round6 (p.2 / qs))))) := by
  have hlk : (m.map fun p => (p.1, PyVal.num p.2)).lookup source
      = some (.num qs) := by rw [lookup_map_num, hs]; rfl
  unfold reverse_rates
  simp only [hlk]
  rw [filter_map_num_swap]
  rw [mapM_ok_of_forall _
      (fun p => (p.1, PyVal.num (round6 (asNumD p.2 / qs))))
      _
      (by
        intro a ha
        rcases List.mem_map.mp ha with ⟨b, _, rfl⟩
        have hr : (do
            let r ← asNum (PyVal.num b.2)
            let bb ← asNum (PyVal.num qs)
            if bb = 0 then Except.error PyErr.divisionByZero
            else Except.ok (b.1, PyVal.num (round6 (r / bb))))
            = if qs = 0 then (Except.error PyErr.divisionByZero :
                Except PyErr (String × PyVal))
              else Except.ok (b.1, PyVal.num (round6 (b.2 / qs))) := rfl
        rw [hr, if_neg h0]
        rfl)]
  rw [List.map_map]
  rfl

/-! Claim theorems. -/

/-- Claim C10: for every input mapping that contains no entry for
`source_currency_code`, `reverse_rates` returns an empty mapping and
raises no error — the missing rebasing denominator is treated as an
empty result, not as a lookup or arithmetic failure. -/
theorem C10_reverse_rates_missing_denominator (source_currency_code : String)
    (m : List (String × PyVal))
    (h : m.lookup source_currency_code = none) :
    reverse_rates source_currency_code (.dict m) = .ok (.dict []) := by
  unfold reverse_rates
  simp only [h]

theorem C10_reverse_rates_missing_denominator_witness :
    reverse_rates "USD" (.dict [("GBP", .num (9/10)), ("CHF", .num (4/5))])
      = .ok (.dict []) :=
  C10_reverse_rates_missing_denominator "USD"
    [("GBP", .num (9/10)), ("CHF", .num (4/5))] rfl

/-- Claim C3: a historical fetch through a provider with an active
forced base returns exactly the reverse-rates transform of the
adapter's raw mapping: every currency of the raw result other than the
denominator (`source_currency_code`) is mapped to
`round(raw[c] / raw[source_currency_code], 6)`, and the denominator
entry itself is dropped from the output. -/
theorem C3_historical_rebase (env : Env) (p : Provider)
    (source_currency_code exchanged_currency_code fb : String) (d : ℕ)
    (m : List (String × ℚ)) (qs : ℚ)
    (hrt : p.resource_type = "http")
    (hfb : p.force_base_currency = some fb) (hfbne : fb ≠ "")
    (hfbs : fb ≠ source_currency_code)
    (hresp : env.httpHistRates p.address fb
      (exchanged_currency_code ++ "," ++ source_currency_code) (toString d)
        = some m)
    (hm : m ≠ [])
    (hs : m.lookup source_currency_code = some qs) (h0 : qs ≠ 0) :
    get_hist_from_provider env p source_currency_code
        exchanged_currency_code d
      = .ok (.dict ((m.filter fun r => r.1 != source_currency_code).map
          fun r => (r.1, PyVal.num (round6 (r.2 / qs))))) ∧
    (∀ c r, c ≠ source_currency_code → m.lookup c = some r →
      ((m.filter fun r => r.1 != source_currency_code).map
          fun r => (r.1, PyVal.num (round6 (r.2 / qs)))).lookup c
        = some (PyVal.num (round6 (r / qs)))) ∧
    ((m.filter fun r => r.1 != source_currency_code).map
        fun r => (r.1, PyVal.num (round6 (r.2 / qs)))).lookup
      source_currency_code = none := by
  refine ⟨?_, ?_, ?_⟩
  · have hraw : adapterHist env .http p.address fb
        (exchanged_currency_code ++ "," ++ source_currency_code) d
        = .ok (.dict (m.map fun r => (r.1, PyVal.num r.2))) := by
      simp [adapterHist, HttpJsonAdapter.get_historical_rates, hresp, hm]
    simp [get_hist_from_provider, selectAdapter_http p hrt, exceptBindOk,
      forceBaseActive_true p source_currency_code fb hfb hfbne hfbs, hfb,
      hraw, reverse_rates_ok source_currency_code m qs hs h0]
  · intro c r hc hr
    have h2 := lookup_filter_map_ne m source_currency_code c
      (fun q => PyVal.num (round6 (q / qs))) hc
    rw [hr] at h2
    exact h2
  · exact lookup_filter_map_self m source_currency_code
      (fun q => PyVal.num (round6 (q / qs)))

theorem C3_historical_rebase_witness :
    get_hist_from_provider envHttpEur provHttpEur "USD" "GBP" 5
      = .ok (.dict (([("GBP", (9:ℚ)/10), ("USD", (11:ℚ)/10)].filter
          fun r => r.1 != "USD").map
            fun r => (r.1, PyVal.num (round6 (r.2 / (11/10)))))) ∧
    (∀ c r, c ≠ "USD" →
      ([("GBP", (9:ℚ)/10), ("USD", (11:ℚ)/10)]).lookup c = some r →
      (([("GBP", (9:ℚ)/10), ("USD", (11:ℚ)/10)].filter
          fun r => r.1 != "USD").map
            fun r => (r.1, PyVal.num (round6 (r.2 / (11/10))))).lookup c
        = some (PyVal.num (round6 (r / (11/10))))) ∧
    (([("GBP", (9:ℚ)/10), ("USD", (11:ℚ)/10)].filter
        fun r => r.1 != "USD").map
          fun r => (r.1, PyVal.num (round6 (r.2 / (11/10))))).lookup "USD"
      = none :=
  C3_historical_rebase envHttpEur provHttpEur "USD" "GBP" "EUR" 5
    [("GBP", 9/10), ("USD", 11/10)] (11/10) rfl rfl (by decide) (by decide)
    rfl (by simp) rfl (by norm_num)

/-- Claim C7: a latest fetch through a provider with an active forced
base asks the adapter for the forced base's rates against the compound
code `exchanged_code,source_code` and returns the scalar
`rate[source_code] / rate[exchanged_code]`. -/
theorem C7_latest_rebase (env : Env) (p : Provider)
    (source_currency_code exchanged_currency_code fb : String)
    (m : List (String × ℚ)) (qs qe : ℚ)
    (hrt : p.resource_type = "http")
    (hfb : p.force_base_currency = some fb) (hfbne : fb ≠ "")
    (hfbs : fb ≠ source_currency_code)
    (hresp : env.httpLatestRates p.address fb
      (exchanged_currency_code ++ "," ++ source_currency_code) = some m)
    (hm : m ≠ [])
    (hs : m.lookup source_currency_code = some qs)
    (he : m.lookup exchanged_currency_code = some qe) (h0 : qe ≠ 0) :
    get_latest_from_provider env p source_currency_code
        exchanged_currency_code = .ok (.num (qs / qe)) := by
  have hraw : adapterLatest env .http p.address fb
      (exchanged_currency_code ++ "," ++ source_currency_code)
      = .ok (.dict (m.map fun r => (r.1, PyVal.num r.2))) := by
    simp [adapterLatest, HttpJsonAdapter.get_latest_rate, hresp, hm,
      joined_contains_comma]
  have hsub1 : pySubscr (.dict (m.map fun r => (r.1, PyVal.num r.2)))
      source_currency_code = .ok (.num qs) := by
    simp [pySubscr, lookup_map_num, hs]
  have hsub2 : pySubscr (.dict (m.map fun r => (r.1, PyVal.num r.2)))
      exchanged_currency_code = .ok (.num qe) := by
    simp [pySubscr, lookup_map_num, he]
  simp [get_latest_from_provider, selectAdapter_http p hrt, exceptBindOk,
    forceBaseActive_true p source_currency_code fb hfb hfbne hfbs, hfb,
    hraw, hsub1, hsub2, asNum, h0]

theorem C7_latest_rebase_witness :
    get_latest_from_provider envHttpEur provHttpEur "USD" "GBP"
      = .ok (.num ((11/10) / (9/10))) :=
  C7_latest_rebase envHttpEur provHttpEur "USD" "GBP" "EUR"
    [("GBP", 9/10), ("USD", 11/10)] (11/10) (9/10) rfl rfl (by decide)
    (by decide) rfl (by simp) rfl rfl (by norm_num)

/-- A provider attempt the latest-fetch loop absorbs or records: it
raises `ProviderError`, or succeeds with a falsy value. -/
theorem fetchLatestGo_append (env : Env)
    (source_currency_code exchanged_currency_code : String)
    (ps1 : List Provider)
    (h : ∀ q ∈ ps1,
      (∃ msg, get_latest_from_provider env q source_currency_code
          exchanged_currency_code = .error (.providerError msg)) ∨
      (∃ v, get_latest_from_provider env q source_currency_code
          exchanged_currency_code = .ok v ∧ pyTruthy v = false)) :
    ∀ (rest : List Provider) (data : PyVal), ∃ d2,
      fetchLatestGo env source_currency_code exchanged_currency_code data
          (ps1 ++ rest)
        = fetchLatestGo env source_currency_code exchanged_currency_code
            d2 rest := by
  induction ps1 with
  | nil => intro rest data; exact ⟨data, rfl⟩
  | cons p ps ih =>
    intro rest data
    rcases h p (List.mem_cons_self p ps) with ⟨msg, hmsg⟩ | ⟨v, hv, hfal⟩
    · rcases ih (fun q hq => h q (List.mem_cons_of_mem p hq)) rest data
        with ⟨d2, hd2⟩
      refine ⟨d2, ?_⟩
      rw [List.cons_append]
      simp only [fetchLatestGo, hmsg]
      exact hd2
    · rcases ih (fun q hq => h q (List.mem_cons_of_mem p hq)) rest v
        with ⟨d2, hd2⟩
      refine ⟨d2, ?_⟩
      rw [List.cons_append]
      simp only [fetchLatestGo, hv, hfal]
      simpa using hd2

/-- The latest-fetch loop over providers that all raise
`ProviderError` leaves `data` untouched. -/
theorem fetchLatestGo_allError (env : Env)
    (source_currency_code exchanged_currency_code : String) :
    ∀ (ps : List Provider),
      (∀ q ∈ ps, ∃ msg, get_latest_from_provider env q source_currency_code
        exchanged_currency_code = .error (.providerError msg)) →
      ∀ data, fetchLatestGo env source_currency_code exchanged_currency_code
        data ps = .ok data := by
  intro ps
  induction ps with
  | nil => intro _ data; rfl
  | cons p ps ih =>
    intro h data
    rcases h p (List.mem_cons_self p ps) with ⟨msg, hmsg⟩
    simp only [fetchLatestGo, hmsg]
    exact ih (fun q hq => h q (List.mem_cons_of_mem p hq)) data

/-- Latest-loop analogue of `fetchLatestGo_append` for the historical
loop. -/
theorem fetchHistGo_append (env : Env)
    (source_currency_code exchanged_currency_code : String)
    (valuation_date : ℕ) (ps1 : List Provider)
    (h : ∀ q ∈ ps1,
      (∃ msg, get_hist_from_provider env q source_currency_code
          exchanged_currency_code valuation_date
            = .error (.providerError msg)) ∨
      (∃ v, get_hist_from_provider env q source_currency_code
          exchanged_currency_code valuation_date = .ok v ∧
            pyTruthy v = false)) :
    ∀ (rest : List Provider) (data : PyVal), ∃ d2,
      fetchHistGo env source_currency_code exchanged_currency_code
          valuation_date data (ps1 ++ rest)
        = fetchHistGo env source_currency_code exchanged_currency_code
            valuation_date d2 rest := by
  induction ps1 with
  | nil => intro rest data; exact ⟨data, rfl⟩
  | cons p ps ih =>
    intro rest data
    rcases h p (List.mem_cons_self p ps) with ⟨msg, hmsg⟩ | ⟨v, hv, hfal⟩
    · rcases ih (fun q hq => h q (List.mem_cons_of_mem p hq)) rest data
        with ⟨d2, hd2⟩
      refine ⟨d2, ?_⟩
      rw [List.cons_append]
      simp only [fetchHistGo, hmsg]
      exact hd2
    · rcases ih (fun q hq => h q (List.mem_cons_of_mem p hq)) rest v
        with ⟨d2, hd2⟩
      refine ⟨d2, ?_⟩
      rw [List.cons_append]
      simp only [fetchHistGo, hv, hfal]
      simpa using hd2

/-- The historical loop over providers that all raise `ProviderError`
leaves `data` untouched. -/
theorem fetchHistGo_allError (env : Env)
    (source_currency_code exchanged_currency_code : String)
    (valuation_date : ℕ) :
    ∀ (ps : List Provider),
      (∀ q ∈ ps, ∃ msg, get_hist_from_provider env q source_currency_code
        exchanged_currency_code valuation_date
          = .error (.providerError msg)) →
      ∀ data, fetchHistGo env source_currency_code exchanged_currency_code
        valuation_date data ps = .ok data := by
  intro ps
  induction ps with
  | nil => intro _ data; rfl
  | cons p ps ih =>
    intro h data
    rcases h p (List.mem_cons_self p ps) with ⟨msg, hmsg⟩
    simp only [fetchHistGo, hmsg]
    exact ih (fun q hq => h q (List.mem_cons_of_mem p hq)) data

/-- Claim C6: a provider whose `resource_type` is neither `http` nor
`json` makes both the latest and the historical fetch path raise a
`ValueError` that the orchestrator loop does not catch, so the whole
call aborts instead of falling through to the next provider (here the
providers before it all failed with `ProviderError` or yielded falsy
results, so the loop reaches the misconfigured provider). -/
theorem C6_unknown_resource_type (env : Env) (p : Provider)
    (source_currency_code exchanged_currency_code : String)
    (valuation_date : ℕ) (ps1 ps2 : List Provider)
    (currencies : List (String × Int))
    (h1 : p.resource_type ≠ "http") (h2 : p.resource_type ≠ "json")
    (habsL : ∀ q ∈ ps1,
      (∃ msg, get_latest_from_provider env q source_currency_code
          exchanged_currency_code = .error (.providerError msg)) ∨
      (∃ v, get_latest_from_provider env q source_currency_code
          exchanged_currency_code = .ok v ∧ pyTruthy v = false))
    (habsH : ∀ q ∈ ps1,
      (∃ msg, get_hist_from_provider env q source_currency_code
          exchanged_currency_code valuation_date
            = .error (.providerError msg)) ∨
      (∃ v, get_hist_from_provider env q source_currency_code
          exchanged_currency_code valuation_date = .ok v ∧
            pyTruthy v = false)) :
    get_latest_from_provider env p source_currency_code
        exchanged_currency_code
      = .error (.valueError
          ("Unknown provider resource type: " ++ p.resource_type)) ∧
    get_hist_from_provider env p source_currency_code
        exchanged_currency_code valuation_date
      = .error (.valueError
          ("Unknown provider resource type: " ++ p.resource_type)) ∧
    fetch_latest_rates_from_provider env (ps1 ++ p :: ps2)
        source_currency_code exchanged_currency_code
      = .error (.valueError
          ("Unknown provider resource type: " ++ p.resource_type)) ∧
    fetch_historical_rates_from_provider env (ps1 ++ p :: ps2) currencies
        source_currency_code exchanged_currency_code valuation_date
      = .error (.valueError
          ("Unknown provider resource type: " ++ p.resource_type)) := by
  have hlat : get_latest_from_provider env p source_currency_code
      exchanged_currency_code
      = .error (.valueError
          ("Unknown provider resource type: " ++ p.resource_type)) := by
    simp [get_latest_from_provider, selectAdapter_unknown p h1 h2,
      exceptBindError]
  have hhist : get_hist_from_provider env p source_currency_code
      exchanged_currency_code valuation_date
      = .error (.valueError
          ("Unknown provider resource type: " ++ p.resource_type)) := by
    simp [get_hist_from_provider, selectAdapter_unknown p h1 h2,
      exceptBindError]
  refine ⟨hlat, hhist, ?_, ?_⟩
  · rcases fetchLatestGo_append env source_currency_code
        exchanged_currency_code ps1 habsL (p :: ps2) .pynone with ⟨d2, hd2⟩
    unfold fetch_latest_rates_from_provider
    rw [hd2]
    simp only [fetchLatestGo, hlat]
  · rcases fetchHistGo_append env source_currency_code
        exchanged_currency_code valuation_date ps1 habsH (p :: ps2) .pynone
      with ⟨d2, hd2⟩
    unfold fetch_historical_rates_from_provider
    rw [hd2]
    simp only [fetchHistGo, hhist]
    rfl

theorem C6_unknown_resource_type_witness :
    get_latest_from_provider envEmpty provCsv "USD" "GBP"
      = .error (.valueError "Unknown provider resource type: csv") ∧
    get_hist_from_provider envEmpty provCsv "USD" "GBP" 7
      = .error (.valueError "Unknown provider resource type: csv") ∧
    fetch_latest_rates_from_provider envEmpty [provHttpPlain, provCsv]
        "USD" "GBP"
      = .error (.valueError "Unknown provider resource type: csv") ∧
    fetch_historical_rates_from_provider envEmpty [provHttpPlain, provCsv]
        [] "USD" "GBP" 7
      = .error (.valueError "Unknown provider resource type: csv") :=
  C6_unknown_resource_type envEmpty provCsv "USD" "GBP" 7 [provHttpPlain]
    [] [] (by decide) (by decide)
    (by
      intro q hq
      rcases List.mem_singleton.mp hq with rfl
      exact Or.inl ⟨"Provider did not return any rates.", rfl⟩)
    (by
      intro q hq
      rcases List.mem_singleton.mp hq with rfl
      exact Or.inl ⟨"Provider did not return any rates.", rfl⟩)

/-- Claim C2, corrected.  The fallback behaviour holds as claimed for
the selection part: providers are tried in order, a `ProviderError` is
absorbed, a falsy result is skipped, and the first truthy result is
returned (for the historical path, after a successful persistence
step).  When every provider raises `ProviderError`, both calls return
`None` (and the historical path writes nothing).  The original claim's
exhaustion clause fails, however, when some provider yields an empty
(falsy but non-`None`) result: see the counterexample. -/
theorem C2_fallback_amended (env : Env) (currencies : List (String × Int))
    (source_currency_code exchanged_currency_code : String)
    (valuation_date : ℕ) (ps1 ps2 ps : List Provider) (p : Provider)
    (v : PyVal) (rows : List CERRow) :
    ((∀ q ∈ ps1,
        (∃ msg, get_latest_from_provider env q source_currency_code
            exchanged_currency_code = .error (.providerError msg)) ∨
        (∃ w, get_latest_from_provider env q source_currency_code
            exchanged_currency_code = .ok w ∧ pyTruthy w = false)) →
      get_latest_from_provider env p source_currency_code
          exchanged_currency_code = .ok v →
      pyTruthy v = true →
      fetch_latest_rates_from_provider env (ps1 ++ p :: ps2)
        source_currency_code exchanged_currency_code = .ok v) ∧
    ((∀ q ∈ ps1,
        (∃ msg, get_hist_from_provider env q source_currency_code
            exchanged_currency_code valuation_date
              = .error (.providerError msg)) ∨
        (∃ w, get_hist_from_provider env q source_currency_code
            exchanged_currency_code valuation_date = .ok w ∧
              pyTruthy w = false)) →
      get_hist_from_provider env p source_currency_code
          exchanged_currency_code valuation_date = .ok v →
      pyTruthy v = true →
      persistHistData currencies source_currency_code
          exchanged_currency_code valuation_date v = .ok rows →
      fetch_historical_rates_from_provider env (ps1 ++ p :: ps2) currencies
        source_currency_code exchanged_currency_code valuation_date
          = .ok (v, rows)) ∧
    ((∀ q ∈ ps, ∃ msg, get_latest_from_provider env q source_currency_code
        exchanged_currency_code = .error (.providerError msg)) →
      fetch_latest_rates_from_provider env ps source_currency_code
        exchanged_currency_code = .ok .pynone) ∧
    ((∀ q ∈ ps, ∃ msg, get_hist_from_provider env q source_currency_code
        exchanged_currency_code valuation_date
          = .error (.providerError msg)) →
      fetch_historical_rates_from_provider env ps currencies
        source_currency_code exchanged_currency_code valuation_date
          = .ok (.pynone, [])) := by
  refine ⟨?_, ?_, ?_, ?_⟩
  · intro habs hok htr
    rcases fetchLatestGo_append env source_currency_code
        exchanged_currency_code ps1 habs (p :: ps2) .pynone with ⟨d2, hd2⟩
    unfold fetch_latest_rates_from_provider
    rw [hd2]
    simp only [fetchLatestGo, hok, htr, if_true]
  · intro habs hok htr hper
    rcases fetchHistGo_append env source_currency_code
        exchanged_currency_code valuation_date ps1 habs (p :: ps2) .pynone
      with ⟨d2, hd2⟩
    unfold fetch_historical_rates_from_provider
    rw [hd2]
    simp only [fetchHistGo, hok, htr, if_true]
    rw [exceptBindOk]
    cases v with
    | pynone => simp [pyTruthy] at htr
    | str s => simp only [hper, exceptBindOk]
    | num q => simp only [hper, exceptBindOk]
    | pydate d => simp only [hper, exceptBindOk]
    | dict m => simp only [hper, exceptBindOk]
  · intro hall
    unfold fetch_latest_rates_from_provider
    exact fetchLatestGo_allError env source_currency_code
      exchanged_currency_code ps hall .pynone
  · intro hall
    unfold fetch_historical_rates_from_provider
    rw [fetchHistGo_allError env source_currency_code
      exchanged_currency_code valuation_date ps hall .pynone]
    rfl

theorem C2_fallback_amended_witness :
    fetch_latest_rates_from_provider envInt [provHttpErr, provHttpPlain]
      "USD" "GBP" = .ok (.num 2) ∧
    fetch_historical_rates_from_provider envInt [provHttpErr, provHttpPlain]
      [("USD", 1), ("GBP", 2)] "USD" "GBP" 7
        = .ok (.dict [("GBP", .num 2)], [⟨1, 2, .num 2, 7⟩]) ∧
    fetch_latest_rates_from_provider envEmpty [provHttpPlain] "USD" "GBP"
      = .ok .pynone ∧
    fetch_historical_rates_from_provider envEmpty [provHttpPlain] []
      "USD" "GBP" 7 = .ok (.pynone, []) := by
  have h := C2_fallback_amended envInt [("USD", 1), ("GBP", 2)] "USD" "GBP" 7
    [provHttpErr] [] [provHttpPlain] provHttpPlain (.dict [("GBP", .num 2)])
    [⟨1, 2, .num 2, 7⟩]
  have h2 := C2_fallback_amended envInt [("USD", 1), ("GBP", 2)] "USD" "GBP"
    7 [provHttpErr] [] [provHttpPlain] provHttpPlain (.num 2) []
  have h3 := C2_fallback_amended envEmpty [] "USD" "GBP" 7 [] []
    [provHttpPlain] provHttpPlain (.num 2) []
  have habs : ∀ q ∈ [provHttpErr],
      (∃ msg, get_latest_from_provider envInt q "USD" "GBP"
          = .error (.providerError msg)) ∨
      (∃ w, get_latest_from_provider envInt q "USD" "GBP" = .ok w ∧
        pyTruthy w = false) := by
    intro q hq
    rcases List.mem_singleton.mp hq with rfl
    exact Or.inl ⟨"Provider did not return any rates.", rfl⟩
  have habsH : ∀ q ∈ [provHttpErr],
      (∃ msg, get_hist_from_provider envInt q "USD" "GBP" 7
          = .error (.providerError msg)) ∨
      (∃ w, get_hist_from_provider envInt q "USD" "GBP" 7 = .ok w ∧
        pyTruthy w = false) := by
    intro q hq
    rcases List.mem_singleton.mp hq with rfl
    exact Or.inl ⟨"Provider did not return any rates.", rfl⟩
  refine ⟨h2.1 habs rfl rfl, h.2.1 habsH rfl rfl rfl, ?_, ?_⟩
  · exact h3.2.2.1 (by
      intro q hq
      rcases List.mem_singleton.mp hq with rfl
      exact ⟨"Provider did not return any rates.", rfl⟩)
  · exact h3.2.2.2 (by
      intro q hq
      rcases List.mem_singleton.mp hq with rfl
      exact ⟨"Provider did not return any rates.", rfl⟩)

/-- Claim C2's counterexample: a single provider that yields an empty
(falsy, non-`None`) historical result.  The orchestrator loop ends with
the empty dict, which is not `None`, so the persistence step runs and
raises a `KeyError` — an exception escapes to the caller, contradicting
the claim that exhaustion always returns absent/null without any
exception. -/
theorem C2_counterexample :
    get_hist_from_provider envNoUsd provHttpEur "USD" "GBP" 7
      = .ok (.dict []) ∧
    fetch_historical_rates_from_provider envNoUsd [provHttpEur]
      [("USD", 1), ("GBP", 2)] "USD" "GBP" 7 = .error (.keyError "GBP") :=
  ⟨rfl, rfl⟩

/-- Claim C9, corrected: only `HttpJsonAdapter.get_latest_rate` has a
compound-request branch and returns the full mapping when
`exchanged_currency_code` contains a comma; `FileJsonAdapter` has no
such branch — it looks the joined string up as a literal key and
returns a scalar when such a key exists (raising `KeyError`
otherwise, see the counterexample). -/
theorem C9_compound_request_amended (m : List (String × ℚ))
    (exchanged_currency_code source_currency_code : String)
    (doc : List FileRecord) (it : FileRecord) (q : ℚ) :
    (m ≠ [] → exchanged_currency_code.data.contains ',' = true →
      HttpJsonAdapter.get_latest_rate (some m) exchanged_currency_code
        = .ok (.dict (m.map fun p => (p.1, PyVal.num p.2)))) ∧
    (doc.find? (fun x => x.base == source_currency_code) = some it →
      it.rates.lookup exchanged_currency_code = some q →
      FileJsonAdapter.get_latest_rate doc source_currency_code
        exchanged_currency_code = .ok (.num q)) := by
  constructor
  · intro hm hc
    have hc2 : ',' ∈ exchanged_currency_code.data := by simpa using hc
    simp [HttpJsonAdapter.get_latest_rate, hm, hc2]
  · intro hf hl
    simp [FileJsonAdapter.get_latest_rate, hf, hl]

theorem C9_compound_request_amended_witness :
    HttpJsonAdapter.get_latest_rate
        (some [("GBP", (9:ℚ)/10), ("USD", (11:ℚ)/10)]) "GBP,USD"
      = .ok (.dict ([("GBP", (9:ℚ)/10), ("USD", (11:ℚ)/10)].map
          fun p => (p.1, PyVal.num p.2))) ∧
    FileJsonAdapter.get_latest_rate docEur "EUR" "GBP"
      = .ok (.num (9/10)) :=
  ⟨(C9_compound_request_amended [("GBP", 9/10), ("USD", 11/10)] "GBP,USD"
      "EUR" docEur ⟨"EUR", "1", [("GBP", 9/10), ("USD", 11/10)]⟩
      (9/10)).1 (by simp) rfl,
   (C9_compound_request_amended [] "GBP" "EUR" docEur
      ⟨"EUR", "1", [("GBP", 9/10), ("USD", 11/10)]⟩ (9/10)).2 rfl rfl⟩

/-- Claim C9's counterexample: with a compound exchanged code, the file
adapter does not return a mapping — it raises a `KeyError` on the
literal joined string even though the file has data for the requested
base and both individual codes. -/
theorem C9_counterexample :
    FileJsonAdapter.get_latest_rate docEur "EUR" "GBP,USD"
      = .error (.keyError "GBP,USD") := rfl

/-- The main loop invariant of `calculate_twrr`: starting from entry
`j` with accumulated return `total`, the loop emits one point per
remaining entry, carrying that entry's date and rate and the rounded
running product of daily returns times the amount.  `rs` and `ds` list
the `rate_value` and `valuation_date` fields of the series entries. -/
theorem twrrStep_spec (amount : ℚ) (rs : List ℚ) (ds hist : List PyVal)
    (hq : ∀ i, i < hist.length →
      pySubscr (hist.getD i .pynone) "rate_value" = .ok (.num (rs.getD i 0)))
    (hd : ∀ i, i < hist.length →
      pySubscr (hist.getD i .pynone) "valuation_date"
        = .ok (ds.getD i .pynone))
    (hnz : ∀ i, i + 1 < hist.length → rs.getD i 0 ≠ 0) :
    ∀ (fuel j : ℕ) (total : ℚ), hist.length ≤ j + fuel →
      j < hist.length →
      ∃ pts, twrrStep amount (hist.getD j .pynone) (hist.drop (j+1)) total
          = .ok pts ∧
        pts.length = hist.length - (j+1) ∧
        ∀ k, k < pts.length → pts.getD k .pynone
          = .dict [("date", ds.getD (j+1+k) .pynone),
                   ("rate_value", .num (rs.getD (j+1+k) 0)),
                   ("twrr", .num (round6 ((total * ∏ i in
                     Finset.Ico (j+1) (j+2+k),
                       rs.getD i 0 / rs.getD (i-1) 0) * amount)))] := by
  intro fuel
  induction fuel with
  | zero => intro j total hfj hj; omega
  | succ fuel ih =>
    intro j total hfj hj
    by_cases hlast : hist.length ≤ j + 1
    · have hdrop : hist.drop (j+1) = [] := List.drop_eq_nil_of_le hlast
      rw [hdrop]
      refine ⟨[], rfl, by simp; omega, by intro k hk; simp at hk⟩
    · push_neg at hlast
      have hj1 : j + 1 < hist.length := hlast
      have hdrop : hist.drop (j+1)
          = hist.getD (j+1) .pynone :: hist.drop (j+2) := by
        rw [List.drop_eq_getElem_cons hj1]
        rw [List.getD_eq_getElem hist .pynone hj1]
      obtain ⟨pts', hpts', hlen', hpt'⟩ :=
        ih (j+1) (total * (rs.getD (j+1) 0 / rs.getD j 0)) (by omega) hj1
      refine ⟨.dict [("date", ds.getD (j+1) .pynone),
          ("rate_value", .num (rs.getD (j+1) 0)),
          ("twrr", .num (round6 ((total * (rs.getD (j+1) 0 / rs.getD j 0))
            * amount)))] :: pts', ?_, ?_, ?_⟩
      · rw [hdrop]
        simp only [twrrStep, hq j (by omega), hq (j+1) hj1, hd (j+1) hj1,
          exceptBindOk, asNum]
        rw [if_neg (hnz j hj1)]
        simp only [exceptBindOk, hpts']
      · simp only [List.length_cons, hlen']
        omega
      · intro k hk
        cases k with
        | zero =>
          simp only [List.getD_cons_zero]
          have hprod : (∏ i in Finset.Ico (j+1) (j+2),
              rs.getD i 0 / rs.getD (i-1) 0)
              = rs.getD (j+1) 0 / rs.getD j 0 := by
            rw [show j + 2 = (j+1) + 1 from rfl,
              Finset.prod_Ico_succ_top (Nat.le_refl (j+1)),
              Finset.Ico_self, Finset.prod_empty, one_mul,
              Nat.add_sub_cancel]
          rw [show j + 1 + 0 = j + 1 from rfl,
            show j + 2 + 0 = j + 2 from rfl, hprod]
        | succ t =>
          simp only [List.getD_cons_succ]
          have hk' : t < pts'.length := by
            rw [List.length_cons] at hk; omega
          rw [hpt' t hk']
          have e1 : j + 1 + 1 + t = j + 1 + (t + 1) := by omega
          have e2 : j + 1 + 2 + t = j + t + 3 := by omega
          have e3 : j + 2 + (t + 1) = j + t + 3 := by omega
          rw [e1, e2, e3]
          have hsplit : (∏ i in Finset.Ico (j+1) (j+t+3),
              rs.getD i 0 / rs.getD (i-1) 0)
              = (rs.getD (j+1) 0 / rs.getD j 0) *
                ∏ i in Finset.Ico (j+1+1) (j+t+3),
                  rs.getD i 0 / rs.getD (i-1) 0 := by
            rw [Finset.prod_eq_prod_Ico_succ_bot (by omega)]
            rw [Nat.add_sub_cancel]
          rw [hsplit, ← mul_assoc]

/-- Claim C1: on a series of maps each carrying a `valuation_date` and
a numeric `rate_value` (the 0-based entry `i` holding rate `rs[i]` and
date `ds[i]`), with every rate except possibly the last one non-zero
(the spec's "valid rate sequences"), `calculate_twrr` returns exactly
`n - 1` points and no error; the 0-based point `k` carries entry
`k+1`'s date and rate and
`twrr = round(amount * product(rate[i]/rate[i-1] for i = 1..k+1), 6)`.
For `n = 0` or `n = 1` the same statement yields an empty sequence and
no error. -/
theorem C1_calculate_twrr (amount : ℚ) (rs : List ℚ) (ds hist : List PyVal)
    (hq : ∀ i, i < hist.length →
      pySubscr (hist.getD i .pynone) "rate_value" = .ok (.num (rs.getD i 0)))
    (hd : ∀ i, i < hist.length →
      pySubscr (hist.getD i .pynone) "valuation_date"
        = .ok (ds.getD i .pynone))
    (hnz : ∀ i, i + 1 < hist.length → rs.getD i 0 ≠ 0) :
    ∃ pts, calculate_twrr hist amount = .ok pts ∧
      pts.length = hist.length - 1 ∧
      ∀ k, k < pts.length → pts.getD k .pynone
        = .dict [("date", ds.getD (k+1) .pynone),
                 ("rate_value", .num (rs.getD (k+1) 0)),
                 ("twrr", .num (round6 (amount * ∏ i in Finset.Ico 1 (k+2),
                    rs.getD i 0 / rs.getD (i-1) 0)))] := by
  cases hist with
  | nil => exact ⟨[], rfl, rfl, by intro k hk; simp at hk⟩
  | cons h t =>
    obtain ⟨pts, hpts, hlen, hpt⟩ := twrrStep_spec amount rs ds (h :: t)
      hq hd hnz ((h :: t).length) 0 1 (by omega) (by simp)
    refine ⟨pts, hpts, by simpa using hlen, ?_⟩
    intro k hk
    rw [hpt k hk]
    have e1 : 0 + 1 + k = k + 1 := by omega
    have e2 : 0 + 2 + k = k + 2 := by omega
    rw [e1, e2]
    have e3 : (0:ℕ) + 1 = 1 := by omega
    rw [e3, one_mul, mul_comm (∏ i in Finset.Ico 1 (k+2),
      rs.getD i 0 / rs.getD (i-1) 0) amount]

theorem C1_calculate_twrr_witness :
    ∃ pts, calculate_twrr [twrrEntry "d1" 1, twrrEntry "d2" 2,
      twrrEntry "d3" 4] 1000 = .ok pts ∧
    pts.length = ([twrrEntry "d1" 1, twrrEntry "d2" 2,
      twrrEntry "d3" 4] : List PyVal).length - 1 ∧
    ∀ k, k < pts.length → pts.getD k .pynone
      = .dict [("date", ([.str "d1", .str "d2", .str "d3"] :
            List PyVal).getD (k+1) .pynone),
          ("rate_value", .num (([1, 2, 4] : List ℚ).getD (k+1) 0)),
          ("twrr", .num (round6 (1000 * ∏ i in Finset.Ico 1 (k+2),
            ([1, 2, 4] : List ℚ).getD i 0
              / ([1, 2, 4] : List ℚ).getD (i-1) 0)))] :=
  C1_calculate_twrr 1000 [1, 2, 4] [.str "d1", .str "d2", .str "d3"]
    [twrrEntry "d1" 1, twrrEntry "d2" 2, twrrEntry "d3" 4]
    (by intro i hi; simp at hi; interval_cases i <;> rfl)
    (by intro i hi; simp at hi; interval_cases i <;> rfl)
    (by
      intro i hi
      simp only [List.length_cons, List.length_nil] at hi
      have h2 : i < 2 := by omega
      interval_cases i <;> norm_num)

/-- A zero rate anywhere among the entries that serve as division
denominators (all but the last entry) makes the `calculate_twrr` loop
fail with a division error, whatever the accumulated state. -/
theorem twrrStep_zero (amount : ℚ) (rs : List ℚ) (ds hist : List PyVal)
    (hq : ∀ i, i < hist.length →
      pySubscr (hist.getD i .pynone) "rate_value" = .ok (.num (rs.getD i 0)))
    (hd : ∀ i, i < hist.length →
      pySubscr (hist.getD i .pynone) "valuation_date"
        = .ok (ds.getD i .pynone)) :
    ∀ (fuel j : ℕ) (total : ℚ), hist.length ≤ j + fuel →
      j < hist.length →
      (∃ z, j ≤ z ∧ z + 1 < hist.length ∧ rs.getD z 0 = 0) →
      twrrStep amount (hist.getD j .pynone) (hist.drop (j+1)) total
        = .error (.divisionByZero) := by
  intro fuel
  induction fuel with
  | zero => intro j total hfj hj _; omega
  | succ fuel ih =>
    intro j total hfj hj hex
    obtain ⟨z, hjz, hz1, hz0⟩ := hex
    have hj1 : j + 1 < hist.length := by omega
    have hdrop : hist.drop (j+1)
        = hist.getD (j+1) .pynone :: hist.drop (j+2) := by
      rw [List.drop_eq_getElem_cons hj1,
        List.getD_eq_getElem hist .pynone hj1]
    rw [hdrop]
    by_cases hj0 : rs.getD j 0 = 0
    · simp only [twrrStep, hq j (by omega), hq (j+1) hj1, exceptBindOk, asNum]
      rw [if_pos hj0]
    · have hrec := ih (j+1) (total * (rs.getD (j+1) 0 / rs.getD j 0))
        (by omega) hj1 ⟨z, by
          rcases Nat.eq_or_lt_of_le hjz with rfl | h
          · exact absurd hz0 hj0
          · omega, hz1, hz0⟩
      simp only [twrrStep, hq j (by omega), hq (j+1) hj1, hd (j+1) hj1,
        exceptBindOk, asNum]
      rw [if_neg hj0]
      simp only [exceptBindOk, hrec, exceptBindError]

/-- Claim C5, corrected: a zero `rate_value` at any position except the
LAST element of a series of length at least 2 makes `calculate_twrr`
fail with an uncaught division error.  (The original claim exempted the
first element instead; the first element is a division denominator and
a zero there does raise, while a zero in the last element is never
divided by — see the counterexample.) -/
theorem C5_zero_rate_amended (amount : ℚ) (rs : List ℚ)
    (ds hist : List PyVal)
    (hq : ∀ i, i < hist.length →
      pySubscr (hist.getD i .pynone) "rate_value" = .ok (.num (rs.getD i 0)))
    (hd : ∀ i, i < hist.length →
      pySubscr (hist.getD i .pynone) "valuation_date"
        = .ok (ds.getD i .pynone))
    (j : ℕ) (hj : j + 1 < hist.length) (hz : rs.getD j 0 = 0) :
    calculate_twrr hist amount = .error (.divisionByZero) := by
  cases hist with
  | nil => simp at hj
  | cons h t =>
    exact twrrStep_zero amount rs ds (h :: t) hq hd ((h :: t).length) 0 1
      (by omega) (by simp) ⟨j, by omega, hj, hz⟩

theorem C5_zero_rate_amended_witness :
    calculate_twrr [twrrEntry "d1" 0, twrrEntry "d2" 2] 100
      = .error (.divisionByZero) :=
  C5_zero_rate_amended 100 [0, 2] [.str "d1", .str "d2"]
    [twrrEntry "d1" 0, twrrEntry "d2" 2]
    (by intro i hi; simp at hi; interval_cases i <;> rfl)
    (by intro i hi; simp at hi; interval_cases i <;> rfl)
    0 (by simp) rfl

/-- Claim C5's counterexample: a zero `rate_value` in the LAST element
(a position other than the first) causes no failure at all —
`calculate_twrr` returns normally, because the last rate is never used
as a denominator. -/
theorem C5_counterexample :
    (calculate_twrr [twrrEntry "2024-01-23" 1, twrrEntry "2024-01-24" 0]
      100).isOk = true ∧
    pySubscr (twrrEntry "2024-01-24" 0) "rate_value" = .ok (.num 0) :=
  ⟨rfl, rfl⟩

theorem lookup_append_left {beta : Type} (a b : List (String × beta))
    (k : String) (v : beta) (h : a.lookup k = some v) :
    (a ++ b).lookup k = some v := by
  induction a with
  | nil => simp [List.lookup] at h
  | cons hd tl ih =>
    rcases hd with ⟨k', v'⟩
    by_cases hk : (k == k') = true
    · simp only [List.lookup, hk] at h ⊢
      exact h
    · simp only [List.lookup, Bool.not_eq_true] at hk
      simp only [List.cons_append, List.lookup, hk] at h ⊢
      exact ih h

theorem lookup_append_right {beta : Type} (a b : List (String × beta))
    (k : String) (h : a.lookup k = none) :
    (a ++ b).lookup k = b.lookup k := by
  induction a with
  | nil => rfl
  | cons hd tl ih =>
    rcases hd with ⟨k', v'⟩
    by_cases hk : (k == k') = true
    · simp only [List.lookup, hk] at h
      exact absurd h (by simp)
    · simp only [List.lookup, Bool.not_eq_true] at hk
      simp only [List.cons_append, List.lookup, hk] at h ⊢
      exact ih h

theorem lookup_none_of_keys {beta : Type} (l : List (String × beta))
    (k : String) (h : ∀ p ∈ l, p.1 ≠ k) : l.lookup k = none := by
  induction l with
  | nil => rfl
  | cons hd tl ih =>
    have hne : (k == hd.1) = false :=
      beq_false_of_ne (fun he => (h hd (List.mem_cons_self hd tl)) he.symm)
    simp only [List.lookup, hne]
    exact ih (fun p hp => h p (List.mem_cons_of_mem hd hp))

theorem dictSet_fresh (a : List (String × PyVal)) (k : String) (v : PyVal)
    (h : ∀ p ∈ a, p.1 ≠ k) : dictSet a k v = a ++ [(k, v)] := by
  induction a with
  | nil => rfl
  | cons hd tl ih =>
    have hne : (hd.1 == k) = false :=
      beq_false_of_ne (h hd (List.mem_cons_self hd tl))
    simp only [dictSet, hne, List.cons_append]
    rw [ih (fun p hp => h p (List.mem_cons_of_mem hd hp))]
    simp

theorem lookup_filtered_rows (rows : List DbRow) (P : DbRow → Bool)
    (F : DbRow → PyVal) (r0 : DbRow)
    (hnd : (rows.map fun r => r.exchanged_currency__code).Nodup)
    (hr0 : r0 ∈ rows) (hP : P r0 = true) :
    ((rows.filter P).map fun r => (r.exchanged_currency__code, F r)).lookup
      r0.exchanged_currency__code = some (F r0) := by
  induction rows with
  | nil => cases hr0
  | cons hd tl ih =>
    have hnd' : (tl.map fun r => r.exchanged_currency__code).Nodup :=
      (List.nodup_cons.mp (by simpa using hnd)).2
    rcases List.mem_cons.mp hr0 with rfl | hmem
    · simp [List.filter_cons, hP, List.lookup]
    · have hne : (r0.exchanged_currency__code ==
          hd.exchanged_currency__code) = false := by
        refine beq_false_of_ne (fun he => ?_)
        have h1 : hd.exchanged_currency__code ∉
            (tl.map fun r => r.exchanged_currency__code) :=
          (List.nodup_cons.mp (by simpa using hnd)).1
        exact h1 (he ▸ List.mem_map_of_mem _ hmem)
      by_cases hPh : P hd = true
      · simp only [List.filter_cons, hPh, if_true, List.map_cons,
          List.lookup, hne]
        exact ih hnd' hmem
      · simp only [List.filter_cons, hPh]
        simp only [Bool.false_eq_true, if_false]
        exact ih hnd' hmem

theorem processDateGroup_err (source_currency_code : String) (d : ℕ)
    (rows : List DbRow) (hsrc : source_currency_code ≠ "EUR")
    (hfind : rows.find? (fun r =>
      r.exchanged_currency__code == source_currency_code) = none) :
    processDateGroup source_currency_code d rows
      = .error (.valueError
          ("No base rate found for currency code " ++ source_currency_code)) := by
  simp [processDateGroup, beq_false_of_ne hsrc, hfind]

theorem processDateGroup_ok_eq (source_currency_code : String) (d : ℕ)
    (rows : List DbRow) (b : DbRow) (hsrc : source_currency_code ≠ "EUR")
    (hfind : rows.find? (fun r =>
      r.exchanged_currency__code == source_currency_code) = some b)
    (hb : b.rate_value ≠ 0) :
    processDateGroup source_currency_code d rows
      = .ok (.dict [("date", .pydate d),
          ("rates", .dict (pyDictUnion
            ((rows.filter fun r =>
              r.exchanged_currency__code != b.exchanged_currency__code).map
                fun r => (r.exchanged_currency__code,
                  PyVal.num (round6 (r.rate_value / b.rate_value))))
            [("EUR", PyVal.num (round6 (1 / b.rate_value)))]))]) := by
  have hmapM : ((rows.filter fun r =>
      r.exchanged_currency__code != b.exchanged_currency__code).mapM
        fun r =>
          if b.rate_value = 0 then Except.error PyErr.divisionByZero
          else Except.ok (r.exchanged_currency__code,
            PyVal.num (round6 (r.rate_value / b.rate_value))))
      = .ok ((rows.filter fun r =>
          r.exchanged_currency__code != b.exchanged_currency__code).map
            fun r => (r.exchanged_currency__code,
              PyVal.num (round6 (r.rate_value / b.rate_value)))) := by
    refine mapM_ok_of_forall _ _ _ (fun r _ => ?_)
    rw [if_neg hb]
  simp only [processDateGroup, beq_false_of_ne hsrc, Bool.false_eq_true,
    if_false, hfind, hmapM, exceptBindOk]
  rw [if_neg hb]

theorem processDateGroup_spec (source_currency_code : String) (d : ℕ)
    (rows : List DbRow) (b : DbRow) (hsrc : source_currency_code ≠ "EUR")
    (hfind : rows.find? (fun r =>
      r.exchanged_currency__code == source_currency_code) = some b)
    (hb : b.rate_value ≠ 0)
    (hnd : (rows.map fun r => r.exchanged_currency__code).Nodup)
    (hEUR : ∀ r ∈ rows, r.exchanged_currency__code ≠ "EUR") :
    ∃ rmap, processDateGroup source_currency_code d rows
        = .ok (.dict [("date", .pydate d), ("rates", .dict rmap)]) ∧
      (∀ r ∈ rows, r.exchanged_currency__code ≠ source_currency_code →
        rmap.lookup r.exchanged_currency__code
          = some (.num (round6 (r.rate_value / b.rate_value)))) ∧
      rmap.lookup "EUR" = some (.num (round6 (1 / b.rate_value))) := by
  have hbcode : b.exchanged_currency__code = source_currency_code := by
    have := List.find?_some hfind
    simpa using this
  have hfresh : ∀ p ∈ ((rows.filter fun r =>
      r.exchanged_currency__code != b.exchanged_currency__code).map
        fun r => (r.exchanged_currency__code,
          PyVal.num (round6 (r.rate_value / b.rate_value)))),
      p.1 ≠ "EUR" := by
    intro p hp
    rcases List.mem_map.mp hp with ⟨r, hr, rfl⟩
    exact hEUR r (List.mem_of_mem_filter hr)
  refine ⟨((rows.filter fun r =>
      r.exchanged_currency__code != b.exchanged_currency__code).map
        fun r => (r.exchanged_currency__code,
          PyVal.num (round6 (r.rate_value / b.rate_value))))
      ++ [("EUR", PyVal.num (round6 (1 / b.rate_value)))], ?_, ?_, ?_⟩
  · rw [processDateGroup_ok_eq source_currency_code d rows b hsrc hfind hb]
    simp only [pyDictUnion, List.foldl_cons, List.foldl_nil]
    rw [dictSet_fresh _ _ _ hfresh]
  · intro r hr hrs
    refine lookup_append_left _ _ _ _ ?_
    have hP : (r.exchanged_currency__code !=
        b.exchanged_currency__code) = true :=
      bne_iff_ne.mpr (by rw [hbcode]; exact hrs)
    exact lookup_filtered_rows rows _ _ r hnd hr hP
  · rw [lookup_append_right _ _ _ (lookup_none_of_keys _ _ (by
      intro p hp
      rcases List.mem_map.mp hp with ⟨r, hr, rfl⟩
      exact hEUR r (List.mem_of_mem_filter hr)))]
    simp [List.lookup]

theorem mapM_groups_err (source_currency_code : String)
    (hsrc : source_currency_code ≠ "EUR") :
    ∀ gs : List (ℕ × List DbRow),
      (∀ g ∈ gs, ∀ r ∈ g.2, r.exchanged_currency__code
        = source_currency_code → r.rate_value ≠ 0) →
      (∃ g ∈ gs, g.2.find? (fun r =>
        r.exchanged_currency__code == source_currency_code) = none) →
      gs.mapM (fun g => processDateGroup source_currency_code g.1 g.2)
        = .error (.valueError ("No base rate found for currency code "
            ++ source_currency_code)) := by
  intro gs
  induction gs with
  | nil => rintro _ ⟨g, hg, _⟩; cases hg
  | cons g gs ih =>
    intro hnz hex
    cases hfind : g.2.find? (fun r =>
        r.exchanged_currency__code == source_currency_code) with
    | none =>
      rw [List.mapM_cons, processDateGroup_err source_currency_code g.1 g.2
        hsrc hfind]
      rfl
    | some b =>
      have hbmem : b ∈ g.2 := List.mem_of_find?_eq_some hfind
      have hbcode : b.exchanged_currency__code = source_currency_code := by
        simpa using List.find?_some hfind
      have hb : b.rate_value ≠ 0 :=
        hnz g (List.mem_cons_self g gs) b hbmem hbcode
      have hex' : ∃ g' ∈ gs, g'.2.find? (fun r =>
          r.exchanged_currency__code == source_currency_code) = none := by
        rcases hex with ⟨g', hg', hfind'⟩
        rcases List.mem_cons.mp hg' with rfl | hmem
        · rw [hfind'] at hfind; cases hfind
        · exact ⟨g', hmem, hfind'⟩
      rw [List.mapM_cons,
        processDateGroup_ok_eq source_currency_code g.1 g.2 b hsrc hfind hb,
        exceptBindOk,
        ih (fun g' hg' => hnz g' (List.mem_cons_of_mem g hg')) hex']
      rfl

theorem mapM_groups_ok (source_currency_code : String)
    (hsrc : source_currency_code ≠ "EUR") :
    ∀ gs : List (ℕ × List DbRow),
      (∀ g ∈ gs, ∀ r ∈ g.2, r.exchanged_currency__code
        = source_currency_code → r.rate_value ≠ 0) →
      (∀ g ∈ gs, (g.2.map fun r => r.exchanged_currency__code).Nodup) →
      (∀ g ∈ gs, ∀ r ∈ g.2, r.exchanged_currency__code ≠ "EUR") →
      (∀ g ∈ gs, ∃ b, g.2.find? (fun r =>
        r.exchanged_currency__code == source_currency_code) = some b) →
      ∃ out, gs.mapM (fun g => processDateGroup source_currency_code g.1 g.2)
          = .ok out ∧
        List.Forall₂ (fun (g : ℕ × List DbRow) (e : PyVal) =>
          ∃ b rmap, g.2.find? (fun r =>
              r.exchanged_currency__code == source_currency_code) = some b ∧
            e = .dict [("date", .pydate g.1), ("rates", .dict rmap)] ∧
            (∀ r ∈ g.2, r.exchanged_currency__code ≠ source_currency_code →
              rmap.lookup r.exchanged_currency__code
                = some (.num (round6 (r.rate_value / b.rate_value)))) ∧
            rmap.lookup "EUR" = some (.num (round6 (1 / b.rate_value))))
          gs out := by
  intro gs
  induction gs with
  | nil => exact fun _ _ _ _ => ⟨[], rfl, List.Forall₂.nil⟩
  | cons g gs ih =>
    intro hnz hnd hEUR hall
    obtain ⟨b, hfind⟩ := hall g (List.mem_cons_self g gs)
    have hbmem : b ∈ g.2 := List.mem_of_find?_eq_some hfind
    have hbcode : b.exchanged_currency__code = source_currency_code := by
      simpa using List.find?_some hfind
    have hb : b.rate_value ≠ 0 :=
      hnz g (List.mem_cons_self g gs) b hbmem hbcode
    obtain ⟨rmap, hok, hlkp, hlkpE⟩ := processDateGroup_spec
      source_currency_code g.1 g.2 b hsrc hfind hb
      (hnd g (List.mem_cons_self g gs))
      (hEUR g (List.mem_cons_self g gs))
    obtain ⟨out, hout, hfa⟩ := ih
      (fun g' hg' => hnz g' (List.mem_cons_of_mem g hg'))
      (fun g' hg' => hnd g' (List.mem_cons_of_mem g hg'))
      (fun g' hg' => hEUR g' (List.mem_cons_of_mem g hg'))
      (fun g' hg' => hall g' (List.mem_cons_of_mem g hg'))
    refine ⟨.dict [("date", .pydate g.1), ("rates", .dict rmap)] :: out,
      ?_, ?_⟩
    · rw [List.mapM_cons, hok, exceptBindOk, hout]
      rfl
    · exact List.Forall₂.cons ⟨b, rmap, hfind, rfl, hlkp, hlkpE⟩ hfa

/-- Claim C4: for a non-EUR source and the stored rows read by
`get_currency_rates_for_period` (grouped by date, with per-group
distinct exchanged codes not containing `EUR`, and non-zero rates for
the source's own rows): if some date group has no row whose exchanged
currency equals the source code, `process_db_rates` raises the data
error; otherwise it succeeds and, per date group, the returned rate map
sends every other currency `c` of the group to
`round(stored_rate[c] / stored_rate[source], 6)` and additionally sends
`EUR` to `round(1 / stored_rate[source], 6)`. -/
theorem C4_period_rebase (db : List StoredRate)
    (source_currency_code : String)
    (hsrc : source_currency_code ≠ "EUR")
    (hnz : ∀ g ∈ groupByDate (db.map fun r =>
        DbRow.mk r.valuation_date r.rate_value r.exchanged_code),
      ∀ r ∈ g.2, r.exchanged_currency__code = source_currency_code →
        r.rate_value ≠ 0)
    (hnd : ∀ g ∈ groupByDate (db.map fun r =>
        DbRow.mk r.valuation_date r.rate_value r.exchanged_code),
      (g.2.map fun r => r.exchanged_currency__code).Nodup)
    (hEUR : ∀ g ∈ groupByDate (db.map fun r =>
        DbRow.mk r.valuation_date r.rate_value r.exchanged_code),
      ∀ r ∈ g.2, r.exchanged_currency__code ≠ "EUR") :
    ((∃ g ∈ groupByDate (db.map fun r =>
        DbRow.mk r.valuation_date r.rate_value r.exchanged_code),
      g.2.find? (fun r =>
        r.exchanged_currency__code == source_currency_code) = none) →
      process_db_rates db source_currency_code
        = .error (.valueError ("No base rate found for currency code "
            ++ source_currency_code))) ∧
    ((∀ g ∈ groupByDate (db.map fun r =>
        DbRow.mk r.valuation_date r.rate_value r.exchanged_code),
      ∃ b, g.2.find? (fun r =>
        r.exchanged_currency__code == source_currency_code) = some b) →
      ∃ out, process_db_rates db source_currency_code = .ok out ∧
        List.Forall₂ (fun (g : ℕ × List DbRow) (e : PyVal) =>
          ∃ b rmap, g.2.find? (fun r =>
              r.exchanged_currency__code == source_currency_code)
                = some b ∧
            e = .dict [("date", .pydate g.1), ("rates", .dict rmap)] ∧
            (∀ r ∈ g.2, r.exchanged_currency__code ≠ source_currency_code →
              rmap.lookup r.exchanged_currency__code
                = some (.num (round6 (r.rate_value / b.rate_value)))) ∧
            rmap.lookup "EUR" = some (.num (round6 (1 / b.rate_value))))
          (groupByDate (db.map fun r =>
            DbRow.mk r.valuation_date r.rate_value r.exchanged_code))
          out) := by
  constructor
  · intro hex
    exact mapM_groups_err source_currency_code hsrc _ hnz hex
  · intro hall
    exact mapM_groups_ok source_currency_code hsrc _ hnz hnd hEUR hall

theorem C4_period_rebase_witness :
    ((∃ g ∈ groupByDate (storeC4.map fun r =>
        DbRow.mk r.valuation_date r.rate_value r.exchanged_code),
      g.2.find? (fun r => r.exchanged_currency__code == "USD") = none) →
      process_db_rates storeC4 "USD"
        = .error (.valueError "No base rate found for currency code USD")) ∧
    ((∀ g ∈ groupByDate (storeC4.map fun r =>
        DbRow.mk r.valuation_date r.rate_value r.exchanged_code),
      ∃ b, g.2.find? (fun r =>
        r.exchanged_currency__code == "USD") = some b) →
      ∃ out, process_db_rates storeC4 "USD" = .ok out ∧
        List.Forall₂ (fun (g : ℕ × List DbRow) (e : PyVal) =>
          ∃ b rmap, g.2.find? (fun r =>
              r.exchanged_currency__code == "USD") = some b ∧
            e = .dict [("date", .pydate g.1), ("rates", .dict rmap)] ∧
            (∀ r ∈ g.2, r.exchanged_currency__code ≠ "USD" →
              rmap.lookup r.exchanged_currency__code
                = some (.num (round6 (r.rate_value / b.rate_value)))) ∧
            rmap.lookup "EUR" = some (.num (round6 (1 / b.rate_value))))
          (groupByDate (storeC4.map fun r =>
            DbRow.mk r.valuation_date r.rate_value r.exchanged_code))
          out) :=
  C4_period_rebase storeC4 "USD" (by decide) (by decide) (by decide)
    (by decide)

/-- Claim C8's evaluation: the example scenario fails instead of
producing a TwrrPoint.  With the claim's literal store (EUR-as-exchanged
rows under source USD), the non-EUR read path looks for a row whose
exchanged currency is USD, finds none, and raises the "No base rate
found" ValueError.  Even with a USD base row present in every date
group, the period entries carry keys `date`/`rates` while
`calculate_twrr` reads `rate_value`/`valuation_date`, so the pipeline
raises a KeyError instead of returning TwrrPoints. -/
theorem C8_weighted_ror_example_fails :
    get_weighted_ror envEmpty [] [] storeC8 "USD" "EUR" 1000 23 30
      = .error (.valueError "No base rate found for currency code USD") ∧
    get_weighted_ror envEmpty [] [] storeUsdBase "USD" "EUR" 1000 23 30
      = .error (.keyError "rate_value") :=
  ⟨rfl, rfl⟩

end BbCurrency
